import Mathlib

/-!
# Component controller: reconciliation of a `Component` into its derived resources

Shallow embedding of `pkg/controller/component/component_controller.go`.

* The cluster client (`client.Client`) is an interface: it is embedded as a record of
  operations over an arbitrary store state, so that every statement proved for an
  arbitrary `Client` holds for the real API server, for a cache-backed split client and
  for an in-memory store alike.
* Every call issued on the client is appended to a call log, so that statements such as
  "no Create is issued" are statements about the log.
* `controllerutil.SetControllerReference` (controller-runtime) and the descriptor
  constructors (`newRoute`, `newService`, ...) are defined outside the embedded file;
  they are taken as parameters (`Scheme`, `Resources`).
-/

namespace ComponentController

/-! ## API errors -/

/-- The `metav1.StatusReason` values that matter to the controller. -/
inductive StatusReason
  | NotFound
  | AlreadyExists
  | Forbidden
  | ServerTimeout
  | InternalError
  deriving DecidableEq

/-- A Go `error` value: either an API `StatusError` carrying a reason, or a plain error
built with `errors.New` / `fmt.Errorf`. -/
inductive Error
  | StatusError (reason : StatusReason) (resource : String) (name : String)
  | New (text : String)
  deriving DecidableEq

/-- Embedding of `errors.IsNotFound`. -/
def IsNotFound : Error → Bool
  | .StatusError .NotFound _ _ => true
  | _ => false

/-- Embedding of `errors.IsAlreadyExists`. -/
def IsAlreadyExists : Error → Bool
  | .StatusError .AlreadyExists _ _ => true
  | _ => false

/-- Embedding of `errors.NewNotFound(schema.GroupResource{Resource: resource}, name)`. -/
def NewNotFound (resource name : String) : Error :=
  .StatusError .NotFound resource name

/-- Embedding of `errors.NewAlreadyExists`. -/
def NewAlreadyExists (resource name : String) : Error :=
  .StatusError .AlreadyExists resource name

/-! ## Data model -/

/-- Owner reference recorded on a dependent object. -/
structure OwnerReference where
  Kind : String
  Name : String
  Controller : Bool
  deriving DecidableEq

/-- The fields of `metav1.ObjectMeta` read or written by the controller.
`DeletionTimestamp` is a `*metav1.Time`: `none` is the nil pointer, `some t` a time
given as an offset from Go's zero time. -/
structure ObjectMeta where
  Namespace : String
  Name : String
  ResourceVersion : String := ""
  DeletionTimestamp : Option Nat := none
  OwnerReferences : List OwnerReference := []
  deriving DecidableEq

/-- Embedding of `(*metav1.Time).IsZero`: a nil pointer or the zero time. -/
def IsZero : Option Nat → Bool
  | none => true
  | some t => t == 0

/-- Spec of a `Component`; `Port` is an `int32`. -/
structure ComponentSpec where
  GitSourceRef : String
  BuildType : String
  Port : Int := 0
  Exposed : Bool := false
  deriving DecidableEq

/-- Status of a `Component`. -/
structure ComponentStatus where
  RevNumber : String := ""
  deriving DecidableEq

/-- The `componentsv1alpha1.Component` custom resource. -/
structure Component where
  ObjectMeta : ObjectMeta
  Spec : ComponentSpec
  Status : ComponentStatus := {}
  deriving DecidableEq

/-- Promoted field `cr.Namespace`. -/
def Component.Namespace (cr : Component) : String := cr.ObjectMeta.Namespace

/-- Promoted field `cr.Name`. -/
def Component.Name (cr : Component) : String := cr.ObjectMeta.Name

/-- Spec of a `GitSource`. -/
structure GitSourceSpec where
  URL : String
  Ref : String := ""
  deriving DecidableEq

/-- The `devconsoleapi.GitSource` custom resource. -/
structure GitSource where
  ObjectMeta : ObjectMeta
  Spec : GitSourceSpec
  deriving DecidableEq

/-- Kinds of the resources derived from a Component. -/
inductive Kind
  | ImageStream
  | BuildConfig
  | DeploymentConfig
  | Service
  | Route
  deriving DecidableEq

/-- A derived resource: its metadata and an uninterpreted rendering of its spec. The Go
type of the resource is carried next to it as a `Kind`. -/
structure Object where
  ObjectMeta : ObjectMeta
  Spec : String := ""
  deriving DecidableEq

/-- Promoted field `obj.Namespace`. -/
def Object.Namespace (o : Object) : String := o.ObjectMeta.Namespace

/-- Promoted field `obj.Name`. -/
def Object.Name (o : Object) : String := o.ObjectMeta.Name

/-- Embedding of `types.NamespacedName` (and of its alias `client.ObjectKey`). -/
structure NamespacedName where
  Namespace : String
  Name : String
  deriving DecidableEq

/-- Embedding of `reconcile.Result`. -/
structure Result where
  Requeue : Bool := false
  deriving DecidableEq

/-! ## Package-level variables -/

/-- Embedding of the map `buildTypeImages`; `none` is a missing key. -/
def buildTypeImages (buildType : String) : Option String :=
  if buildType = "nodejs" then some "nodeshift/centos7-s2i-nodejs:10.x" else none

/-- Embedding of the variable `openshiftNamespace`. -/
def openshiftNamespace : String := "openshift"

/-! ## External collaborators -/

/-- The `client.Client` operations used by the controller, over a store state `σ`.
`Get` is split by the Go type of the object it fills in. Each operation returns the
store state it leaves behind. `Create` reports `none` for a nil error. The fields
a server fills in on the created object are not represented. -/
structure Client (σ : Type) where
  GetComponent : σ → NamespacedName → Except Error Component × σ
  GetGitSource : σ → NamespacedName → Except Error GitSource × σ
  Get : σ → Kind → NamespacedName → Except Error Object × σ
  Create : σ → Kind → Object → Option Error × σ

/-- The `runtime.Scheme` as far as the controller uses it: the outcome of
`controllerutil.SetControllerReference(owner, object, scheme)`, which returns the
object with the owner reference stamped, or an error. -/
structure Scheme where
  SetControllerReference : Component → Object → Except Error Object

/-- Descriptor constructors of the package that live outside the embedded file:
`newRoute`, `newService`, `newDeploymentConfig`, `newBuildConfig`,
`newOutputImageStream`, and the descriptor built by `newImageStreamFromDocker` for a
mapped image. A nil `*imagev1.ImageStream` argument is `none`. -/
structure Resources where
  newRoute : Component → Object
  newService : Component → Int → Except Error Object
  newDeploymentConfig : Component → Object → Object
  newBuildConfig : Component → Option Object → GitSource → Object
  newOutputImageStream : Component → Object
  dockerImageStream : Component → String → Object

/-- Modelled from the spec: `newImageStreamFromDocker` is absent from the embedded file.
Per the builder-resolution rule it consults the build-type-to-image table and yields nil
when the build type has no mapping, otherwise a descriptor pointing at the mapped image. -/
def newImageStreamFromDocker (res : Resources) (cr : Component) : Option Object :=
  match buildTypeImages cr.Spec.BuildType with
  | none => none
  | some image => some (res.dockerImageStream cr image)

/-- A call issued on the client. -/
inductive Call
  | GetComponent (key : NamespacedName)
  | GetGitSource (key : NamespacedName)
  | Get (kind : Kind) (key : NamespacedName)
  | Create (kind : Kind) (obj : Object)
  deriving DecidableEq

/-- Whether a call is a `Create`. -/
def Call.isCreate : Call → Bool
  | .Create _ _ => true
  | _ => false

/-- The store state together with the log of calls issued so far, oldest first. -/
structure World (σ : Type) where
  store : σ
  calls : List Call

/-- Embedding of the struct `ReconcileComponent`, together with the package-level
descriptor constructors it calls. -/
structure ReconcileComponent (σ : Type) where
  client : Client σ
  scheme : Scheme
  resources : Resources

variable {σ : Type}

/-- Logged `r.client.Get` of a Component. -/
def ReconcileComponent.GetComponent (r : ReconcileComponent σ) (w : World σ)
    (key : NamespacedName) : Except Error Component × World σ :=
  ((r.client.GetComponent w.store key).1,
    ⟨(r.client.GetComponent w.store key).2, w.calls ++ [Call.GetComponent key]⟩)

/-- Logged `r.client.Get` of a GitSource. -/
def ReconcileComponent.GetGitSource (r : ReconcileComponent σ) (w : World σ)
    (key : NamespacedName) : Except Error GitSource × World σ :=
  ((r.client.GetGitSource w.store key).1,
    ⟨(r.client.GetGitSource w.store key).2, w.calls ++ [Call.GetGitSource key]⟩)

/-- Logged `r.client.Get` of a derived resource. -/
def ReconcileComponent.Get (r : ReconcileComponent σ) (w : World σ) (kind : Kind)
    (key : NamespacedName) : Except Error Object × World σ :=
  ((r.client.Get w.store kind key).1,
    ⟨(r.client.Get w.store kind key).2, w.calls ++ [Call.Get kind key]⟩)

/-- Logged `r.client.Create`. -/
def ReconcileComponent.Create (r : ReconcileComponent σ) (w : World σ) (kind : Kind)
    (obj : Object) : Option Error × World σ :=
  ((r.client.Create w.store kind obj).1,
    ⟨(r.client.Create w.store kind obj).2, w.calls ++ [Call.Create kind obj]⟩)

/-! ## The controller -/

/-- Embedding of `CreateRoute`. -/
def CreateRoute (r : ReconcileComponent σ) (w : World σ) (cr : Component) :
    Except Error Object × World σ :=
  match r.scheme.SetControllerReference cr (r.resources.newRoute cr) with
  | .error err => (.error err, w)
  | .ok route =>
    match r.Get w .Route ⟨route.Namespace, route.Name⟩ with
    | (.ok foundRoute, w) => (.ok foundRoute, w)
    | (.error err, w) =>
      if IsNotFound err then
        match r.Create w .Route route with
        | (some err, w) => (.error err, w)
        | (none, w) => (.ok route, w)
      else (.error err, w)

/-- Embedding of `CreateService`. -/
def CreateService (r : ReconcileComponent σ) (w : World σ) (cr : Component) :
    Except Error Object × World σ :=
  let port : Int := if cr.Spec.Port ≠ 0 then cr.Spec.Port else 8080
  match r.resources.newService cr port with
  | .error err => (.error err, w)
  | .ok svc =>
    match r.scheme.SetControllerReference cr svc with
    | .error err => (.error err, w)
    | .ok svc =>
      match r.Get w .Service ⟨svc.Namespace, svc.Name⟩ with
      | (.ok foundSvc, w) => (.ok foundSvc, w)
      | (.error err, w) =>
        if IsNotFound err then
          match r.Create w .Service svc with
          | (some err, w) => (.error err, w)
          | (none, w) => (.ok svc, w)
        else (.error err, w)

/-- Embedding of `CreateDeploymentConfig`. -/
def CreateDeploymentConfig (r : ReconcileComponent σ) (w : World σ) (cr : Component)
    (outputIS : Object) : Except Error Object × World σ :=
  match r.scheme.SetControllerReference cr (r.resources.newDeploymentConfig cr outputIS) with
  | .error err => (.error err, w)
  | .ok dc =>
    match r.Get w .DeploymentConfig ⟨dc.Namespace, dc.Name⟩ with
    | (.ok foundDc, w) => (.ok foundDc, w)
    | (.error err, w) =>
      if IsNotFound err then
        match r.Create w .DeploymentConfig dc with
        | (some err, w) => (.error err, w)
        | (none, w) => (.ok dc, w)
      else (.error err, w)

/-- Embedding of `CreateBuildConfig`; `builderIS` may be the nil pointer. -/
def CreateBuildConfig (r : ReconcileComponent σ) (w : World σ) (cr : Component)
    (builderIS : Option Object) (gitSource : GitSource) : Except Error Object × World σ :=
  match r.scheme.SetControllerReference cr (r.resources.newBuildConfig cr builderIS gitSource) with
  | .error err => (.error err, w)
  | .ok bc =>
    match r.Get w .BuildConfig ⟨bc.Namespace, bc.Name⟩ with
    | (.ok foundBc, w) => (.ok foundBc, w)
    | (.error err, w) =>
      if IsNotFound err then
        match r.Create w .BuildConfig bc with
        | (some err, w) => (.error err, w)
        | (none, w) => (.ok bc, w)
      else (.error err, w)

/-- Embedding of `CreateOutputImageStream`. -/
def CreateOutputImageStream (r : ReconcileComponent σ) (w : World σ) (cr : Component) :
    Except Error Object × World σ :=
  match r.scheme.SetControllerReference cr (r.resources.newOutputImageStream cr) with
  | .error err => (.error err, w)
  | .ok outputIS =>
    match r.Get w .ImageStream ⟨outputIS.Namespace, outputIS.Name⟩ with
    | (.ok foundOutputIS, w) => (.ok foundOutputIS, w)
    | (.error err, w) =>
      if IsNotFound err then
        match r.Create w .ImageStream outputIS with
        | (some err, w) => (.error err, w)
        | (none, w) => (.ok outputIS, w)
      else (.error err, w)

/-- Embedding of `CreateBuilderImageStream`. The returned pointer may be nil (`none`):
`newImageForBuilder` is declared nil and is what the final `return` yields. -/
def CreateBuilderImageStream (r : ReconcileComponent σ) (w : World σ) (inst : Component) :
    Except Error (Option Object) × World σ :=
  match r.Get w .ImageStream ⟨openshiftNamespace, inst.Spec.BuildType⟩ with
  | (.ok found, w) => (.ok (some found), w)
  | (.error err, w) =>
    if IsNotFound err then
      match newImageStreamFromDocker r.resources inst with
      | none =>
        (.error (NewNotFound "ImageStream" "builder image for build not found"), w)
      | some newImageForBuilder =>
        match r.Create w .ImageStream newImageForBuilder with
        | (some err, w) => (.error err, w)
        | (none, w) =>
          match r.scheme.SetControllerReference inst newImageForBuilder with
          | .error err => (.error err, w)
          | .ok newImageForBuilder => (.ok (some newImageForBuilder), w)
    else (.ok none, w)

/-- The assignment at the top of `Reconcile`: an empty `Status.RevNumber` of the
in-memory copy is set to `ObjectMeta.ResourceVersion`. -/
def assignRevNumber (inst : Component) : Component :=
  if inst.Status.RevNumber = "" then
    { inst with Status := { inst.Status with RevNumber := inst.ObjectMeta.ResourceVersion } }
  else inst

/-- The creation sequence of `Reconcile`: the body of the branch taken when
`Status.RevNumber` equals `ResourceVersion`, followed by the final `return`. -/
def createResources (r : ReconcileComponent σ) (w : World σ) (inst : Component) :
    Except Error Result × World σ :=
  if inst.Spec.GitSourceRef = "" then
    (.error (.New "GitSource reference is not provided"), w)
  else
    match r.GetGitSource w ⟨inst.Namespace, inst.Spec.GitSourceRef⟩ with
    | (.error err, w) => (.error err, w)
    | (.ok gitSource, w) =>
      match CreateOutputImageStream r w inst with
      | (.error err, w) => (.error err, w)
      | (.ok outputIS, w) =>
        match CreateBuilderImageStream r w inst with
        | (.error err, w) => (.error err, w)
        | (.ok builderIS, w) =>
          match CreateBuildConfig r w inst builderIS gitSource with
          | (.error err, w) => (.error err, w)
          | (.ok _, w) =>
            match CreateDeploymentConfig r w inst outputIS with
            | (.error err, w) => (.error err, w)
            | (.ok _, w) =>
              match CreateService r w inst with
              | (.error err, w) => (.error err, w)
              | (.ok _, w) =>
                if inst.Spec.Exposed = true then
                  match CreateRoute r w inst with
                  | (.error err, w) => (.error err, w)
                  | (.ok _, w) => (.ok {}, w)
                else (.ok {}, w)

/-- Embedding of `Reconcile`. -/
def Reconcile (r : ReconcileComponent σ) (w : World σ) (request : NamespacedName) :
    Except Error Result × World σ :=
  match r.GetComponent w request with
  | (.error err, w) =>
    if IsNotFound err then (.ok {}, w) else (.error err, w)
  | (.ok inst, w) =>
    let inst := assignRevNumber inst
    if !IsZero inst.ObjectMeta.DeletionTimestamp then (.ok {}, w)
    else if inst.Status.RevNumber = inst.ObjectMeta.ResourceVersion then
      createResources r w inst
    else (.ok {}, w)


/-! ## Reference store -/

/-- An in-memory cluster store: the Components, the GitSources and the derived
resources it holds, each keyed by kind, namespace and name. -/
structure Store where
  components : List Component
  gitSources : List GitSource
  objects : List (Kind × Object)
  deriving DecidableEq

/-- The derived resource stored under a kind and key, if any. -/
def Store.lookup (s : Store) (kind : Kind) (key : NamespacedName) : Option Object :=
  (s.objects.find? (fun p =>
    decide (p.1 = kind ∧ p.2.Namespace = key.Namespace ∧ p.2.Name = key.Name))).map Prod.snd

/-- The client of the in-memory store, with the store semantics the controller relies
on: a read of an absent key reports not-found, a create of a present key reports
already-exists, and a successful create stores the object as given. Reads never
change the store. -/
def storeClient : Client Store where
  GetComponent := fun s key =>
    (match s.components.find? (fun c =>
        decide (c.Namespace = key.Namespace ∧ c.Name = key.Name)) with
      | some c => .ok c
      | none => .error (NewNotFound "components" key.Name), s)
  GetGitSource := fun s key =>
    (match s.gitSources.find? (fun g =>
        decide (g.ObjectMeta.Namespace = key.Namespace ∧ g.ObjectMeta.Name = key.Name)) with
      | some g => .ok g
      | none => .error (NewNotFound "gitsources" key.Name), s)
  Get := fun s kind key =>
    (match s.lookup kind key with
      | some o => .ok o
      | none => .error (NewNotFound "objects" key.Name), s)
  Create := fun s kind obj =>
    match s.lookup kind ⟨obj.Namespace, obj.Name⟩ with
    | some _ => (some (NewAlreadyExists "objects" obj.Name), s)
    | none => (none, { s with objects := s.objects ++ [(kind, obj)] })

/-- A client over the in-memory store on which chosen reads and creates of derived
resources fail with a given error before reaching the store. -/
def faultyClient (getErr : Kind → NamespacedName → Option Error)
    (createErr : Kind → Object → Option Error) : Client Store where
  GetComponent := storeClient.GetComponent
  GetGitSource := storeClient.GetGitSource
  Get := fun s kind key =>
    match getErr kind key with
    | some err => (.error err, s)
    | none => storeClient.Get s kind key
  Create := fun s kind obj =>
    match createErr kind obj with
    | some err => (some err, s)
    | none => storeClient.Create s kind obj

/-- A scheme in which the Component kind is registered: stamping records the Component
as controller, and fails when the object is already controlled by another owner. -/
def ownerScheme : Scheme where
  SetControllerReference := fun cr obj =>
    if obj.ObjectMeta.OwnerReferences.any
        (fun ref => ref.Controller && !(ref.Kind == "Component" && ref.Name == cr.Name)) then
      .error (.New "object is already owned by another controller")
    else
      .ok { obj with ObjectMeta := { obj.ObjectMeta with
              OwnerReferences := [⟨"Component", cr.Name, true⟩] } }

/-- A scheme in which the Component kind is not registered: stamping always fails. -/
def emptyScheme : Scheme where
  SetControllerReference := fun _ _ => .error (.New "no kind is registered for the type Component")

/-- Modelled from the spec: the descriptor constructors are absent from the embedded
file. Each derived resource is named from the Component's identity and placed in the
Component's namespace; the service fails outside the legal port range; the
synthesized builder image stream is named after the build type, points at the mapped
external image, and lives with the Component that owns it (builder resolution takes the
Component's namespace; the shared namespace is a read-only pool). -/
def s2iResources : Resources where
  newRoute := fun cr => { ObjectMeta := { Namespace := cr.Namespace, Name := cr.Name }, Spec := "route" }
  newService := fun cr port =>
    if 1 ≤ port ∧ port ≤ 65535 then
      .ok { ObjectMeta := { Namespace := cr.Namespace, Name := cr.Name }, Spec := "service" }
    else .error (.New "port is not valid")
  newDeploymentConfig := fun cr outputIS =>
    { ObjectMeta := { Namespace := cr.Namespace, Name := cr.Name }, Spec := outputIS.Name }
  newBuildConfig := fun cr _ gitSource =>
    { ObjectMeta := { Namespace := cr.Namespace, Name := cr.Name }, Spec := gitSource.Spec.URL }
  newOutputImageStream := fun cr =>
    { ObjectMeta := { Namespace := cr.Namespace, Name := cr.Name } }
  dockerImageStream := fun cr image =>
    { ObjectMeta := { Namespace := cr.Namespace, Name := cr.Spec.BuildType }, Spec := image }

/-- The controller running against the in-memory store. -/
def storeReconciler : ReconcileComponent Store :=
  { client := storeClient, scheme := ownerScheme, resources := s2iResources }

/-! ## Contracts and proof devices -/

/-- The read-then-create tail that the five `Create…` functions of the derived resources
repeat verbatim after stamping, written once. It is a proof device: each of the five
functions is shown below to unfold to it. -/
def getOrCreate (r : ReconcileComponent σ) (w : World σ) (kind : Kind) (desired : Object) :
    Except Error Object × World σ :=
  match r.Get w kind ⟨desired.Namespace, desired.Name⟩ with
  | (.ok found, w) => (.ok found, w)
  | (.error err, w) =>
    if IsNotFound err then
      match r.Create w kind desired with
      | (some err, w) => (.error err, w)
      | (none, w) => (.ok desired, w)
    else (.error err, w)

/-- The contract of the materializer, in the words of the specification: started in
world `w` with the stamped descriptor `desired`, the outcome `out` is the resource read
under the descriptor's name and namespace when the read succeeds (nothing is created);
the descriptor itself after exactly one Create when the read reports not-found and
the Create succeeds; the Create error when that Create fails; the read error when the
read fails otherwise. The call log records exactly the calls issued. -/
def EnsureContract (r : ReconcileComponent σ) (kind : Kind) (desired : Object) (w : World σ)
    (out : Except Error Object × World σ) : Prop :=
  (∀ found s1, r.client.Get w.store kind ⟨desired.Namespace, desired.Name⟩ = (.ok found, s1) →
    out = (.ok found, ⟨s1, w.calls ++ [Call.Get kind ⟨desired.Namespace, desired.Name⟩]⟩)) ∧
  (∀ err s1 s2, r.client.Get w.store kind ⟨desired.Namespace, desired.Name⟩ = (.error err, s1) →
    IsNotFound err = true → r.client.Create s1 kind desired = (none, s2) →
    out = (.ok desired, ⟨s2, w.calls ++
      [Call.Get kind ⟨desired.Namespace, desired.Name⟩, Call.Create kind desired]⟩)) ∧
  (∀ err s1 cerr s2, r.client.Get w.store kind ⟨desired.Namespace, desired.Name⟩ = (.error err, s1) →
    IsNotFound err = true → r.client.Create s1 kind desired = (some cerr, s2) →
    out = (.error cerr, ⟨s2, w.calls ++
      [Call.Get kind ⟨desired.Namespace, desired.Name⟩, Call.Create kind desired]⟩)) ∧
  (∀ err s1, r.client.Get w.store kind ⟨desired.Namespace, desired.Name⟩ = (.error err, s1) →
    IsNotFound err = false →
    out = (.error err, ⟨s1, w.calls ++ [Call.Get kind ⟨desired.Namespace, desired.Name⟩]⟩))

/-- The revision gate of `Reconcile` as the specification words it: no deletion marker,
and a stored revision marker that is empty or equal to the current ResourceVersion. -/
def Admitted (inst : Component) : Prop :=
  IsZero inst.ObjectMeta.DeletionTimestamp = true ∧
    (inst.Status.RevNumber = "" ∨ inst.Status.RevNumber = inst.ObjectMeta.ResourceVersion)

instance (inst : Component) : Decidable (Admitted inst) := by
  unfold Admitted; infer_instance

/-! ## Concrete inputs -/

/-- A Component as a user creates it: no revision marker yet, exposed, built with the
mapped build type. -/
def appComponent : Component :=
  { ObjectMeta := { Namespace := "myproject", Name := "app", ResourceVersion := "42" },
    Spec := { GitSourceRef := "app-source", BuildType := "nodejs", Exposed := true } }

/-- The GitSource that `appComponent` refers to. -/
def appGitSource : GitSource :=
  { ObjectMeta := { Namespace := "myproject", Name := "app-source" },
    Spec := { URL := "https://example.org/app.git" } }

/-- The request naming `appComponent`. -/
def appRequest : NamespacedName := ⟨"myproject", "app"⟩

/-- A store holding a Component and its GitSource and no derived resource. -/
def storeOf (cr : Component) : Store :=
  { components := [cr], gitSources := [appGitSource], objects := [] }

/-- A world over the store of a Component with an empty call log. -/
def worldOf (cr : Component) : World Store := ⟨storeOf cr, []⟩

/-- The Component `appComponent` with a revision marker left stale by a later change. -/
def staleComponent : Component :=
  { appComponent with Status := { RevNumber := "41" } }

/-- The Component `appComponent` with a revision marker equal to its ResourceVersion. -/
def convergedComponent : Component :=
  { appComponent with Status := { RevNumber := "42" } }

/-- The Component `appComponent` without source reference. -/
def unreferencedComponent : Component :=
  { appComponent with Spec := { appComponent.Spec with GitSourceRef := "" } }

/-- The Component `unreferencedComponent` once marked for deletion. -/
def deletedComponent : Component :=
  { unreferencedComponent with
    ObjectMeta := { unreferencedComponent.ObjectMeta with DeletionTimestamp := some 1556668800 } }

/-- The Component `appComponent` with a build type absent from `buildTypeImages`. -/
def rubyComponent : Component :=
  { appComponent with Spec := { appComponent.Spec with BuildType := "ruby" } }

/-- The owner reference that `ownerScheme` stamps for `appComponent`. -/
def appOwner : OwnerReference := ⟨"Component", "app", true⟩

/-- The route descriptor of `appComponent` after stamping. -/
def appRoute : Object :=
  { ObjectMeta := { Namespace := "myproject", Name := "app", OwnerReferences := [appOwner] },
    Spec := "route" }

/-- The resource another actor creates under a key on the racing client. -/
def racerObject (key : NamespacedName) : Object :=
  { ObjectMeta := { Namespace := key.Namespace, Name := key.Name },
    Spec := "created concurrently" }

/-- A client over the in-memory store on which another actor creates a derived resource
right after this controller has read it as absent: the read reports not-found and
leaves the store holding the other actor's resource. -/
def racingClient : Client Store where
  GetComponent := storeClient.GetComponent
  GetGitSource := storeClient.GetGitSource
  Get := fun s kind key =>
    match s.lookup kind key with
    | some o => (.ok o, s)
    | none =>
      (.error (NewNotFound "objects" key.Name),
        { s with objects := s.objects ++ [(kind, racerObject key)] })
  Create := storeClient.Create

/-- The controller running against the racing client. -/
def racingReconciler : ReconcileComponent Store :=
  { client := racingClient, scheme := ownerScheme, resources := s2iResources }

/-- The controller running against a client on which reads in the shared namespace
are forbidden. -/
def forbiddenReconciler : ReconcileComponent Store :=
  { client := faultyClient
      (fun _ key => if key.Namespace = openshiftNamespace then
        some (.StatusError .Forbidden "imagestreams" key.Name) else none)
      (fun _ _ => none),
    scheme := ownerScheme, resources := s2iResources }

/-- The controller running against the in-memory store with a scheme that cannot stamp. -/
def unstampedReconciler : ReconcileComponent Store :=
  { client := storeClient, scheme := emptyScheme, resources := s2iResources }

/-- The output image stream descriptor of `appComponent` after stamping. -/
def appOutputIS : Object :=
  { ObjectMeta := { Namespace := "myproject", Name := "app", OwnerReferences := [appOwner] } }

/-- The builder image stream synthesized for `appComponent`, as passed to Create. -/
def appBuilderIS : Object :=
  { ObjectMeta := { Namespace := "myproject", Name := "nodejs" },
    Spec := "nodeshift/centos7-s2i-nodejs:10.x" }

/-- What the code does on a create conflict: started in world `w`, when the read under
`key` reports not-found and the Create of `desired` fails with an already-exists
error, the outcome `out` is that error, with no resource, after exactly those two calls. -/
def ConflictContract {α : Type} (r : ReconcileComponent σ) (kind : Kind) (key : NamespacedName)
    (desired : Object) (w : World σ) (out : Except Error α × World σ) : Prop :=
  ∀ err s1 cerr s2, r.client.Get w.store kind key = (.error err, s1) →
    IsNotFound err = true → r.client.Create s1 kind desired = (some cerr, s2) →
    IsAlreadyExists cerr = true →
    out = (.error cerr, ⟨s2, w.calls ++ [Call.Get kind key, Call.Create kind desired]⟩)

/-! ## Unfolding lemmas -/

theorem CreateRoute_eq (r : ReconcileComponent σ) (w : World σ) (cr : Component) :
    CreateRoute r w cr =
      match r.scheme.SetControllerReference cr (r.resources.newRoute cr) with
      | .error err => (.error err, w)
      | .ok route => getOrCreate r w .Route route := by
  unfold CreateRoute getOrCreate; rfl

theorem CreateService_eq (r : ReconcileComponent σ) (w : World σ) (cr : Component) :
    CreateService r w cr =
      match r.resources.newService cr (if cr.Spec.Port ≠ 0 then cr.Spec.Port else 8080) with
      | .error err => (.error err, w)
      | .ok svc =>
        match r.scheme.SetControllerReference cr svc with
        | .error err => (.error err, w)
        | .ok svc => getOrCreate r w .Service svc := by
  unfold CreateService getOrCreate; rfl

theorem CreateDeploymentConfig_eq (r : ReconcileComponent σ) (w : World σ) (cr : Component)
    (outputIS : Object) :
    CreateDeploymentConfig r w cr outputIS =
      match r.scheme.SetControllerReference cr (r.resources.newDeploymentConfig cr outputIS) with
      | .error err => (.error err, w)
      | .ok dc => getOrCreate r w .DeploymentConfig dc := by
  unfold CreateDeploymentConfig getOrCreate; rfl

theorem CreateBuildConfig_eq (r : ReconcileComponent σ) (w : World σ) (cr : Component)
    (builderIS : Option Object) (gitSource : GitSource) :
    CreateBuildConfig r w cr builderIS gitSource =
      match r.scheme.SetControllerReference cr
          (r.resources.newBuildConfig cr builderIS gitSource) with
      | .error err => (.error err, w)
      | .ok bc => getOrCreate r w .BuildConfig bc := by
  unfold CreateBuildConfig getOrCreate; rfl

theorem CreateOutputImageStream_eq (r : ReconcileComponent σ) (w : World σ) (cr : Component) :
    CreateOutputImageStream r w cr =
      match r.scheme.SetControllerReference cr (r.resources.newOutputImageStream cr) with
      | .error err => (.error err, w)
      | .ok outputIS => getOrCreate r w .ImageStream outputIS := by
  unfold CreateOutputImageStream getOrCreate; rfl

/-! ## The read-then-create tail, case by case -/

theorem getOrCreate_found (r : ReconcileComponent σ) (w : World σ) (kind : Kind)
    (desired found : Object) (s1 : σ)
    (hget : r.client.Get w.store kind ⟨desired.Namespace, desired.Name⟩ = (.ok found, s1)) :
    getOrCreate r w kind desired =
      (.ok found, ⟨s1, w.calls ++ [Call.Get kind ⟨desired.Namespace, desired.Name⟩]⟩) := by
  simp [getOrCreate, ReconcileComponent.Get, hget]

theorem getOrCreate_read_failed (r : ReconcileComponent σ) (w : World σ) (kind : Kind)
    (desired : Object) (err : Error) (s1 : σ)
    (hget : r.client.Get w.store kind ⟨desired.Namespace, desired.Name⟩ = (.error err, s1))
    (hnf : IsNotFound err = false) :
    getOrCreate r w kind desired =
      (.error err, ⟨s1, w.calls ++ [Call.Get kind ⟨desired.Namespace, desired.Name⟩]⟩) := by
  simp [getOrCreate, ReconcileComponent.Get, hget, hnf]

theorem getOrCreate_created (r : ReconcileComponent σ) (w : World σ) (kind : Kind)
    (desired : Object) (err : Error) (s1 s2 : σ)
    (hget : r.client.Get w.store kind ⟨desired.Namespace, desired.Name⟩ = (.error err, s1))
    (hnf : IsNotFound err = true)
    (hcreate : r.client.Create s1 kind desired = (none, s2)) :
    getOrCreate r w kind desired =
      (.ok desired, ⟨s2, w.calls ++
        [Call.Get kind ⟨desired.Namespace, desired.Name⟩, Call.Create kind desired]⟩) := by
  simp [getOrCreate, ReconcileComponent.Get, ReconcileComponent.Create, hget, hnf, hcreate]

theorem getOrCreate_create_failed (r : ReconcileComponent σ) (w : World σ) (kind : Kind)
    (desired : Object) (err cerr : Error) (s1 s2 : σ)
    (hget : r.client.Get w.store kind ⟨desired.Namespace, desired.Name⟩ = (.error err, s1))
    (hnf : IsNotFound err = true)
    (hcreate : r.client.Create s1 kind desired = (some cerr, s2)) :
    getOrCreate r w kind desired =
      (.error cerr, ⟨s2, w.calls ++
        [Call.Get kind ⟨desired.Namespace, desired.Name⟩, Call.Create kind desired]⟩) := by
  simp [getOrCreate, ReconcileComponent.Get, ReconcileComponent.Create, hget, hnf, hcreate]

theorem getOrCreate_contract (r : ReconcileComponent σ) (w : World σ) (kind : Kind)
    (desired : Object) : EnsureContract r kind desired w (getOrCreate r w kind desired) :=
  ⟨fun found s1 h => getOrCreate_found r w kind desired found s1 h,
   fun err s1 s2 h hnf hc => getOrCreate_created r w kind desired err s1 s2 h hnf hc,
   fun err s1 cerr s2 h hnf hc => getOrCreate_create_failed r w kind desired err cerr s1 s2 h hnf hc,
   fun err s1 h hnf => getOrCreate_read_failed r w kind desired err s1 h hnf⟩

/-! ## Relations preserved along a run

A relation between worlds that is reflexive, transitive and holds across every single
client call holds between the world a function starts in and the world it leaves. -/

theorem getOrCreate_world (r : ReconcileComponent σ) (P : World σ → World σ → Prop)
    (htrans : ∀ a b c, P a b → P b c → P a c)
    (hget : ∀ w k key, P w (r.Get w k key).2) (hcreate : ∀ w k o, P w (r.Create w k o).2)
    (w : World σ) (kind : Kind) (desired : Object) :
    P w (getOrCreate r w kind desired).2 := by
  unfold getOrCreate
  have h1 := hget w kind ⟨desired.Namespace, desired.Name⟩
  rcases hg : r.Get w kind ⟨desired.Namespace, desired.Name⟩ with ⟨res, w1⟩
  rw [hg] at h1
  cases res with
  | ok found => exact h1
  | error err =>
    by_cases hnf : IsNotFound err = true
    · simp only [hnf, if_true]
      have h2 := hcreate w1 kind desired
      rcases hc : r.Create w1 kind desired with ⟨cres, w2⟩
      rw [hc] at h2
      cases cres <;> exact htrans _ _ _ h1 h2
    · simp only [hnf]; exact h1

theorem CreateOutputImageStream_world (r : ReconcileComponent σ)
    (P : World σ → World σ → Prop) (hrefl : ∀ w, P w w)
    (htrans : ∀ a b c, P a b → P b c → P a c)
    (hget : ∀ w k key, P w (r.Get w k key).2) (hcreate : ∀ w k o, P w (r.Create w k o).2)
    (w : World σ) (cr : Component) : P w (CreateOutputImageStream r w cr).2 := by
  rw [CreateOutputImageStream_eq]
  cases r.scheme.SetControllerReference cr (r.resources.newOutputImageStream cr) with
  | error e => exact hrefl w
  | ok d => exact getOrCreate_world r P htrans hget hcreate w _ d

theorem CreateBuildConfig_world (r : ReconcileComponent σ)
    (P : World σ → World σ → Prop) (hrefl : ∀ w, P w w)
    (htrans : ∀ a b c, P a b → P b c → P a c)
    (hget : ∀ w k key, P w (r.Get w k key).2) (hcreate : ∀ w k o, P w (r.Create w k o).2)
    (w : World σ) (cr : Component) (builderIS : Option Object) (gitSource : GitSource) :
    P w (CreateBuildConfig r w cr builderIS gitSource).2 := by
  rw [CreateBuildConfig_eq]
  cases r.scheme.SetControllerReference cr
      (r.resources.newBuildConfig cr builderIS gitSource) with
  | error e => exact hrefl w
  | ok d => exact getOrCreate_world r P htrans hget hcreate w _ d

theorem CreateDeploymentConfig_world (r : ReconcileComponent σ)
    (P : World σ → World σ → Prop) (hrefl : ∀ w, P w w)
    (htrans : ∀ a b c, P a b → P b c → P a c)
    (hget : ∀ w k key, P w (r.Get w k key).2) (hcreate : ∀ w k o, P w (r.Create w k o).2)
    (w : World σ) (cr : Component) (outputIS : Object) :
    P w (CreateDeploymentConfig r w cr outputIS).2 := by
  rw [CreateDeploymentConfig_eq]
  cases r.scheme.SetControllerReference cr (r.resources.newDeploymentConfig cr outputIS) with
  | error e => exact hrefl w
  | ok d => exact getOrCreate_world r P htrans hget hcreate w _ d

theorem CreateService_world (r : ReconcileComponent σ)
    (P : World σ → World σ → Prop) (hrefl : ∀ w, P w w)
    (htrans : ∀ a b c, P a b → P b c → P a c)
    (hget : ∀ w k key, P w (r.Get w k key).2) (hcreate : ∀ w k o, P w (r.Create w k o).2)
    (w : World σ) (cr : Component) : P w (CreateService r w cr).2 := by
  rw [CreateService_eq]
  cases r.resources.newService cr (if cr.Spec.Port ≠ 0 then cr.Spec.Port else 8080) with
  | error e => exact hrefl w
  | ok svc =>
    cases hs : r.scheme.SetControllerReference cr svc with
    | error e => simp only [hs]; exact hrefl w
    | ok d => simp only [hs]; exact getOrCreate_world r P htrans hget hcreate w _ d

theorem CreateRoute_world (r : ReconcileComponent σ)
    (P : World σ → World σ → Prop) (hrefl : ∀ w, P w w)
    (htrans : ∀ a b c, P a b → P b c → P a c)
    (hget : ∀ w k key, P w (r.Get w k key).2) (hcreate : ∀ w k o, P w (r.Create w k o).2)
    (w : World σ) (cr : Component) : P w (CreateRoute r w cr).2 := by
  rw [CreateRoute_eq]
  cases r.scheme.SetControllerReference cr (r.resources.newRoute cr) with
  | error e => exact hrefl w
  | ok d => exact getOrCreate_world r P htrans hget hcreate w _ d

theorem CreateBuilderImageStream_world (r : ReconcileComponent σ)
    (P : World σ → World σ → Prop)
    (htrans : ∀ a b c, P a b → P b c → P a c)
    (hget : ∀ w k key, P w (r.Get w k key).2) (hcreate : ∀ w k o, P w (r.Create w k o).2)
    (w : World σ) (cr : Component) : P w (CreateBuilderImageStream r w cr).2 := by
  unfold CreateBuilderImageStream
  have h1 := hget w .ImageStream ⟨openshiftNamespace, cr.Spec.BuildType⟩
  rcases hg : r.Get w .ImageStream ⟨openshiftNamespace, cr.Spec.BuildType⟩ with ⟨res, w1⟩
  rw [hg] at h1
  cases res with
  | ok found => exact h1
  | error err =>
    by_cases hnf : IsNotFound err = true
    · simp only [hnf, if_true]
      cases newImageStreamFromDocker r.resources cr with
      | none => exact h1
      | some b =>
        have h2 := hcreate w1 .ImageStream b
        simp only []
        rcases hc : r.Create w1 .ImageStream b with ⟨cres, w2⟩
        rw [hc] at h2
        cases cres with
        | some e => exact htrans _ _ _ h1 h2
        | none =>
          simp only []
          cases r.scheme.SetControllerReference cr b <;> exact htrans _ _ _ h1 h2
    · simp only [hnf]; exact h1

theorem createResources_world (r : ReconcileComponent σ)
    (P : World σ → World σ → Prop) (hrefl : ∀ w, P w w)
    (htrans : ∀ a b c, P a b → P b c → P a c)
    (hget : ∀ w k key, P w (r.Get w k key).2) (hcreate : ∀ w k o, P w (r.Create w k o).2)
    (w : World σ) (inst : Component) (hne : inst.Spec.GitSourceRef ≠ "") :
    P (r.GetGitSource w ⟨inst.Namespace, inst.Spec.GitSourceRef⟩).2
      (createResources r w inst).2 := by
  unfold createResources
  rw [if_neg hne]
  rcases r.GetGitSource w ⟨inst.Namespace, inst.Spec.GitSourceRef⟩ with ⟨res, w1⟩
  cases res with
  | error e => exact hrefl w1
  | ok gitSource =>
    simp only []
    have p1 := CreateOutputImageStream_world r P hrefl htrans hget hcreate w1 inst
    rcases h1 : CreateOutputImageStream r w1 inst with ⟨r1, w2⟩
    rw [h1] at p1
    cases r1 with
    | error e => exact p1
    | ok outputIS =>
      simp only []
      have p2 := htrans _ _ _ p1
        (CreateBuilderImageStream_world r P htrans hget hcreate w2 inst)
      rcases h2 : CreateBuilderImageStream r w2 inst with ⟨r2, w3⟩
      rw [h2] at p2
      cases r2 with
      | error e => exact p2
      | ok builderIS =>
        simp only []
        have p3 := htrans _ _ _ p2
          (CreateBuildConfig_world r P hrefl htrans hget hcreate w3 inst builderIS gitSource)
        rcases h3 : CreateBuildConfig r w3 inst builderIS gitSource with ⟨r3, w4⟩
        rw [h3] at p3
        cases r3 with
        | error e => exact p3
        | ok bc =>
          simp only []
          have p4 := htrans _ _ _ p3
            (CreateDeploymentConfig_world r P hrefl htrans hget hcreate w4 inst outputIS)
          rcases h4 : CreateDeploymentConfig r w4 inst outputIS with ⟨r4, w5⟩
          rw [h4] at p4
          cases r4 with
          | error e => exact p4
          | ok dc =>
            simp only []
            have p5 := htrans _ _ _ p4
              (CreateService_world r P hrefl htrans hget hcreate w5 inst)
            rcases h5 : CreateService r w5 inst with ⟨r5, w6⟩
            rw [h5] at p5
            cases r5 with
            | error e => exact p5
            | ok svc =>
              simp only []
              by_cases hexp : inst.Spec.Exposed = true
              · rw [if_pos hexp]
                have p6 := htrans _ _ _ p5
                  (CreateRoute_world r P hrefl htrans hget hcreate w6 inst)
                rcases h6 : CreateRoute r w6 inst with ⟨r6, w7⟩
                rw [h6] at p6
                cases r6 <;> exact p6
              · rw [if_neg hexp]; exact p5

/-! ## The revision gate -/

theorem assignRevNumber_ObjectMeta (inst : Component) :
    (assignRevNumber inst).ObjectMeta = inst.ObjectMeta := by
  unfold assignRevNumber; split <;> rfl

theorem assignRevNumber_Spec (inst : Component) :
    (assignRevNumber inst).Spec = inst.Spec := by
  unfold assignRevNumber; split <;> rfl

theorem assignRevNumber_gate (inst : Component) :
    (assignRevNumber inst).Status.RevNumber = (assignRevNumber inst).ObjectMeta.ResourceVersion ↔
      (inst.Status.RevNumber = "" ∨ inst.Status.RevNumber = inst.ObjectMeta.ResourceVersion) := by
  unfold assignRevNumber
  by_cases h : inst.Status.RevNumber = ""
  · simp [h]
  · simp [h]

theorem assignRevNumber_of_eq (inst : Component)
    (h : inst.Status.RevNumber = inst.ObjectMeta.ResourceVersion) :
    assignRevNumber inst = inst := by
  unfold assignRevNumber
  split
  · rw [← h]
  · rfl

theorem Reconcile_of_GetComponent (r : ReconcileComponent σ) (w : World σ)
    (request : NamespacedName) (inst : Component) (s1 : σ)
    (hget : r.client.GetComponent w.store request = (.ok inst, s1)) :
    Reconcile r w request =
      if (!IsZero (assignRevNumber inst).ObjectMeta.DeletionTimestamp) = true then
        (.ok {}, ⟨s1, w.calls ++ [Call.GetComponent request]⟩)
      else if (assignRevNumber inst).Status.RevNumber =
          (assignRevNumber inst).ObjectMeta.ResourceVersion then
        createResources r ⟨s1, w.calls ++ [Call.GetComponent request]⟩ (assignRevNumber inst)
      else (.ok {}, ⟨s1, w.calls ++ [Call.GetComponent request]⟩) := by
  unfold Reconcile
  simp only [ReconcileComponent.GetComponent, hget]

theorem Reconcile_admitted (r : ReconcileComponent σ) (w : World σ)
    (request : NamespacedName) (inst : Component) (s1 : σ)
    (hget : r.client.GetComponent w.store request = (.ok inst, s1))
    (hadm : Admitted inst) :
    Reconcile r w request =
      createResources r ⟨s1, w.calls ++ [Call.GetComponent request]⟩ (assignRevNumber inst) := by
  rw [Reconcile_of_GetComponent r w request inst s1 hget]
  have hgate := (assignRevNumber_gate inst).mpr hadm.2
  simp [assignRevNumber_ObjectMeta, hadm.1, hgate]

theorem Reconcile_not_admitted (r : ReconcileComponent σ) (w : World σ)
    (request : NamespacedName) (inst : Component) (s1 : σ)
    (hget : r.client.GetComponent w.store request = (.ok inst, s1))
    (hadm : ¬ Admitted inst) :
    Reconcile r w request = (.ok {}, ⟨s1, w.calls ++ [Call.GetComponent request]⟩) := by
  rw [Reconcile_of_GetComponent r w request inst s1 hget]
  by_cases hdel : IsZero inst.ObjectMeta.DeletionTimestamp = true
  · have hgate : ¬ ((assignRevNumber inst).Status.RevNumber =
        (assignRevNumber inst).ObjectMeta.ResourceVersion) :=
      fun h => hadm ⟨hdel, (assignRevNumber_gate inst).mp h⟩
    simp only [assignRevNumber_ObjectMeta] at hgate ⊢
    simp [hdel, hgate]
  · simp [assignRevNumber_ObjectMeta, hdel]

theorem createResources_ne_noop (r : ReconcileComponent σ) (w : World σ) (inst : Component)
    (res : Result) : createResources r w inst ≠ (.ok res, w) := by
  by_cases hne : inst.Spec.GitSourceRef = ""
  · unfold createResources
    rw [if_pos hne]
    intro h
    cases (Prod.mk.inj h).1
  · intro h
    have hext := createResources_world r
      (fun a b => ∃ t, b.calls = a.calls ++ t) (fun _ => ⟨[], by simp⟩)
      (fun a b c hab hbc => by
        obtain ⟨t1, h1⟩ := hab
        obtain ⟨t2, h2⟩ := hbc
        exact ⟨t1 ++ t2, by rw [h2, h1, List.append_assoc]⟩)
      (fun w k key => ⟨[Call.Get k key], rfl⟩)
      (fun w k o => ⟨[Call.Create k o], rfl⟩) w inst hne
    obtain ⟨t, ht⟩ := hext
    rw [h] at ht
    have hlen := congrArg List.length ht
    simp [ReconcileComponent.GetGitSource] at hlen

theorem Reconcile_world (r : ReconcileComponent σ)
    (P : World σ → World σ → Prop) (hrefl : ∀ w, P w w)
    (htrans : ∀ a b c, P a b → P b c → P a c)
    (hgc : ∀ w key, P w (r.GetComponent w key).2)
    (hgs : ∀ w key, P w (r.GetGitSource w key).2)
    (hget : ∀ w k key, P w (r.Get w k key).2) (hcreate : ∀ w k o, P w (r.Create w k o).2)
    (w : World σ) (request : NamespacedName) : P w (Reconcile r w request).2 := by
  unfold Reconcile
  have p0 := hgc w request
  rcases hg : r.GetComponent w request with ⟨res, w1⟩
  rw [hg] at p0
  cases res with
  | error e =>
    simp only []
    split <;> exact p0
  | ok inst =>
    simp only []
    split
    · exact p0
    · split
      · by_cases hne : (assignRevNumber inst).Spec.GitSourceRef = ""
        · unfold createResources
          rw [if_pos hne]; exact p0
        · exact htrans _ _ _ p0 (htrans _ _ _ (hgs w1 _)
            (createResources_world r P hrefl htrans hget hcreate w1 _ hne))
      · exact p0

/-! ## The in-memory store -/

theorem Store.lookup_append (s : Store) (kind : Kind) (o : Object) (k : Kind)
    (key : NamespacedName) :
    Store.lookup { s with objects := s.objects ++ [(kind, o)] } k key =
      match s.lookup k key with
      | some x => some x
      | none =>
        if kind = k ∧ o.Namespace = key.Namespace ∧ o.Name = key.Name then some o else none := by
  unfold Store.lookup
  simp only [List.find?_append]
  cases h : List.find? (fun p =>
      decide (p.1 = k ∧ p.2.Namespace = key.Namespace ∧ p.2.Name = key.Name)) s.objects with
  | some x => simp
  | none =>
    by_cases hk : kind = k ∧ o.Namespace = key.Namespace ∧ o.Name = key.Name
    · simp [List.find?, hk]
    · simp [List.find?, hk]

theorem getOrCreate_store_found (sch : Scheme) (res : Resources) (w : World Store)
    (kind : Kind) (desired found : Object)
    (h : w.store.lookup kind ⟨desired.Namespace, desired.Name⟩ = some found) :
    getOrCreate ⟨storeClient, sch, res⟩ w kind desired =
      (.ok found, ⟨w.store, w.calls ++ [Call.Get kind ⟨desired.Namespace, desired.Name⟩]⟩) :=
  getOrCreate_found _ w kind desired found w.store (by simp [storeClient, h])

theorem getOrCreate_store_absent (sch : Scheme) (res : Resources) (w : World Store)
    (kind : Kind) (desired : Object)
    (h : w.store.lookup kind ⟨desired.Namespace, desired.Name⟩ = none) :
    getOrCreate ⟨storeClient, sch, res⟩ w kind desired =
      (.ok desired, ⟨{ w.store with objects := w.store.objects ++ [(kind, desired)] },
        w.calls ++ [Call.Get kind ⟨desired.Namespace, desired.Name⟩,
          Call.Create kind desired]⟩) :=
  getOrCreate_created _ w kind desired (NewNotFound "objects" desired.Name) w.store _
    (by simp [storeClient, h]) rfl (by simp [storeClient, h])

theorem CreateBuilderImageStream_store_unmapped (sch : Scheme) (res : Resources)
    (w : World Store) (inst : Component)
    (h : w.store.lookup .ImageStream ⟨openshiftNamespace, inst.Spec.BuildType⟩ = none)
    (hmap : buildTypeImages inst.Spec.BuildType = none) :
    CreateBuilderImageStream ⟨storeClient, sch, res⟩ w inst =
      (.error (NewNotFound "ImageStream" "builder image for build not found"),
        ⟨w.store, w.calls ++
          [Call.Get .ImageStream ⟨openshiftNamespace, inst.Spec.BuildType⟩]⟩) := by
  simp [CreateBuilderImageStream, ReconcileComponent.Get, storeClient, h,
    newImageStreamFromDocker, hmap, IsNotFound, NewNotFound]

theorem CreateBuilderImageStream_store_conflict (sch : Scheme) (res : Resources)
    (w : World Store) (inst : Component) (b foundB : Object)
    (h : w.store.lookup .ImageStream ⟨openshiftNamespace, inst.Spec.BuildType⟩ = none)
    (hnew : newImageStreamFromDocker res inst = some b)
    (hb : w.store.lookup .ImageStream ⟨b.Namespace, b.Name⟩ = some foundB) :
    CreateBuilderImageStream ⟨storeClient, sch, res⟩ w inst =
      (.error (NewAlreadyExists "objects" b.Name),
        ⟨w.store, w.calls ++
          [Call.Get .ImageStream ⟨openshiftNamespace, inst.Spec.BuildType⟩,
            Call.Create .ImageStream b]⟩) := by
  simp [CreateBuilderImageStream, ReconcileComponent.Get, ReconcileComponent.Create,
    storeClient, h, hnew, hb, IsNotFound, NewNotFound]

theorem createResources_builder_failed (r : ReconcileComponent σ) (w w1 w2 w3 : World σ)
    (inst : Component) (gitSource : GitSource) (outputIS : Object) (err : Error)
    (hne : inst.Spec.GitSourceRef ≠ "")
    (hgs : r.GetGitSource w ⟨inst.Namespace, inst.Spec.GitSourceRef⟩ = (.ok gitSource, w1))
    (hout : CreateOutputImageStream r w1 inst = (.ok outputIS, w2))
    (hbuilder : CreateBuilderImageStream r w2 inst = (.error err, w3)) :
    createResources r w inst = (.error err, w3) := by
  unfold createResources
  simp only [hne, if_false, hgs, hout, hbuilder]

/-! ## The materializer -/

/-- C9: each of `CreateOutputImageStream`, `CreateBuildConfig`, `CreateDeploymentConfig`,
`CreateService` and `CreateRoute`, once its descriptor is built and stamped, satisfies
the get-or-create contract for the stamped descriptor: a successful read by the
descriptor's name and namespace returns the resource found and issues no Create; a
not-found read issues exactly one Create of the descriptor and returns it when the
Create succeeds; any other read error and any Create error is returned unchanged with
no resource. -/
theorem Create_functions_satisfy_EnsureContract (r : ReconcileComponent σ) (w : World σ)
    (cr : Component) (outputIS : Object) (builderIS : Option Object) (gitSource : GitSource) :
    (∀ d, r.scheme.SetControllerReference cr (r.resources.newOutputImageStream cr) = .ok d →
      EnsureContract r .ImageStream d w (CreateOutputImageStream r w cr)) ∧
    (∀ d, r.scheme.SetControllerReference cr
        (r.resources.newBuildConfig cr builderIS gitSource) = .ok d →
      EnsureContract r .BuildConfig d w (CreateBuildConfig r w cr builderIS gitSource)) ∧
    (∀ d, r.scheme.SetControllerReference cr
        (r.resources.newDeploymentConfig cr outputIS) = .ok d →
      EnsureContract r .DeploymentConfig d w (CreateDeploymentConfig r w cr outputIS)) ∧
    (∀ svc d, r.resources.newService cr
        (if cr.Spec.Port ≠ 0 then cr.Spec.Port else 8080) = .ok svc →
      r.scheme.SetControllerReference cr svc = .ok d →
      EnsureContract r .Service d w (CreateService r w cr)) ∧
    (∀ d, r.scheme.SetControllerReference cr (r.resources.newRoute cr) = .ok d →
      EnsureContract r .Route d w (CreateRoute r w cr)) := by
  refine ⟨?_, ?_, ?_, ?_, ?_⟩
  · intro d h
    rw [CreateOutputImageStream_eq]; simp only [h]
    exact getOrCreate_contract r w .ImageStream d
  · intro d h
    rw [CreateBuildConfig_eq]; simp only [h]
    exact getOrCreate_contract r w .BuildConfig d
  · intro d h
    rw [CreateDeploymentConfig_eq]; simp only [h]
    exact getOrCreate_contract r w .DeploymentConfig d
  · intro svc d hsvc h
    rw [CreateService_eq]; simp only [hsvc, h]
    exact getOrCreate_contract r w .Service d
  · intro d h
    rw [CreateRoute_eq]; simp only [h]
    exact getOrCreate_contract r w .Route d

/-- Witness for C9: on a store without the route, stamping succeeds, the read reports
not-found, the Create succeeds, and `CreateRoute` returns the stamped descriptor after
one read and one Create. -/
theorem Create_functions_satisfy_EnsureContract_witness :
    CreateRoute storeReconciler (worldOf appComponent) appComponent =
      (.ok appRoute,
        ⟨{ storeOf appComponent with objects := [(Kind.Route, appRoute)] },
          [Call.Get .Route ⟨"myproject", "app"⟩, Call.Create .Route appRoute]⟩) :=
  ((Create_functions_satisfy_EnsureContract storeReconciler (worldOf appComponent)
      appComponent appRoute none appGitSource).2.2.2.2 appRoute rfl).2.1
    (NewNotFound "objects" "app") (storeOf appComponent)
    { storeOf appComponent with objects := [(Kind.Route, appRoute)] } rfl rfl rfl

/-- C8 (as stated, refuted): on a client where another actor creates the output image
stream right after it was read as absent, `CreateOutputImageStream` reads once, issues
one Create, and returns the already-exists error with no resource; it does not read
again, although the resource is in the store by then. -/
theorem create_conflict_not_reread_counterexample :
    CreateOutputImageStream racingReconciler (worldOf appComponent) appComponent =
      (.error (NewAlreadyExists "objects" "app"),
        ⟨{ storeOf appComponent with
            objects := [(Kind.ImageStream, racerObject ⟨"myproject", "app"⟩)] },
          [Call.Get .ImageStream ⟨"myproject", "app"⟩, Call.Create .ImageStream appOutputIS]⟩) ∧
    Store.lookup { storeOf appComponent with
        objects := [(Kind.ImageStream, racerObject ⟨"myproject", "app"⟩)] }
      .ImageStream ⟨"myproject", "app"⟩ = some (racerObject ⟨"myproject", "app"⟩) :=
  ⟨rfl, rfl⟩

/-- C8 (amended): for every derived-resource kind, the builder image stream included,
when the read reports not-found and the subsequent Create fails with an
already-exists error, the operation returns that error unchanged with no resource and
issues no further call. -/
theorem create_conflict_is_returned (r : ReconcileComponent σ) (w : World σ)
    (cr : Component) (outputIS : Object) (builderIS : Option Object) (gitSource : GitSource) :
    (∀ d, r.scheme.SetControllerReference cr (r.resources.newOutputImageStream cr) = .ok d →
      ConflictContract r .ImageStream ⟨d.Namespace, d.Name⟩ d w
        (CreateOutputImageStream r w cr)) ∧
    (∀ b, newImageStreamFromDocker r.resources cr = some b →
      ConflictContract r .ImageStream ⟨openshiftNamespace, cr.Spec.BuildType⟩ b w
        (CreateBuilderImageStream r w cr)) ∧
    (∀ d, r.scheme.SetControllerReference cr
        (r.resources.newBuildConfig cr builderIS gitSource) = .ok d →
      ConflictContract r .BuildConfig ⟨d.Namespace, d.Name⟩ d w
        (CreateBuildConfig r w cr builderIS gitSource)) ∧
    (∀ d, r.scheme.SetControllerReference cr
        (r.resources.newDeploymentConfig cr outputIS) = .ok d →
      ConflictContract r .DeploymentConfig ⟨d.Namespace, d.Name⟩ d w
        (CreateDeploymentConfig r w cr outputIS)) ∧
    (∀ svc d, r.resources.newService cr
        (if cr.Spec.Port ≠ 0 then cr.Spec.Port else 8080) = .ok svc →
      r.scheme.SetControllerReference cr svc = .ok d →
      ConflictContract r .Service ⟨d.Namespace, d.Name⟩ d w (CreateService r w cr)) ∧
    (∀ d, r.scheme.SetControllerReference cr (r.resources.newRoute cr) = .ok d →
      ConflictContract r .Route ⟨d.Namespace, d.Name⟩ d w (CreateRoute r w cr)) := by
  refine ⟨?_, ?_, ?_, ?_, ?_, ?_⟩
  · intro d h err s1 cerr s2 hget hnf hcreate _
    rw [CreateOutputImageStream_eq]; simp only [h]
    exact getOrCreate_create_failed r w _ d err cerr s1 s2 hget hnf hcreate
  · intro b hb err s1 cerr s2 hget hnf hcreate _
    simp [CreateBuilderImageStream, ReconcileComponent.Get, ReconcileComponent.Create,
      hget, hnf, hb, hcreate]
  · intro d h err s1 cerr s2 hget hnf hcreate _
    rw [CreateBuildConfig_eq]; simp only [h]
    exact getOrCreate_create_failed r w _ d err cerr s1 s2 hget hnf hcreate
  · intro d h err s1 cerr s2 hget hnf hcreate _
    rw [CreateDeploymentConfig_eq]; simp only [h]
    exact getOrCreate_create_failed r w _ d err cerr s1 s2 hget hnf hcreate
  · intro svc d hsvc h err s1 cerr s2 hget hnf hcreate _
    rw [CreateService_eq]; simp only [hsvc, h]
    exact getOrCreate_create_failed r w _ d err cerr s1 s2 hget hnf hcreate
  · intro d h err s1 cerr s2 hget hnf hcreate _
    rw [CreateRoute_eq]; simp only [h]
    exact getOrCreate_create_failed r w _ d err cerr s1 s2 hget hnf hcreate

/-- Witness for C8 (amended): on the racing client `CreateRoute` meets a create conflict
and returns the already-exists error after one read and one Create. -/
theorem create_conflict_is_returned_witness :
    CreateRoute racingReconciler (worldOf appComponent) appComponent =
      (.error (NewAlreadyExists "objects" "app"),
        ⟨{ storeOf appComponent with
            objects := [(Kind.Route, racerObject ⟨"myproject", "app"⟩)] },
          [Call.Get .Route ⟨"myproject", "app"⟩, Call.Create .Route appRoute]⟩) :=
  (create_conflict_is_returned racingReconciler (worldOf appComponent) appComponent
      appOutputIS none appGitSource).2.2.2.2.2 appRoute rfl
    (NewNotFound "objects" "app")
    { storeOf appComponent with objects := [(Kind.Route, racerObject ⟨"myproject", "app"⟩)] }
    (NewAlreadyExists "objects" "app")
    { storeOf appComponent with objects := [(Kind.Route, racerObject ⟨"myproject", "app"⟩)] }
    rfl rfl rfl rfl

/-! ## The builder image stream -/

/-- C6 (what the code does): when the lookup of the image stream named after the build
type in the shared namespace fails with an error other than not-found,
`CreateBuilderImageStream` returns a nil image stream together with a nil error, after
that single read: the error is dropped. -/
theorem CreateBuilderImageStream_drops_read_error (r : ReconcileComponent σ) (w : World σ)
    (inst : Component) (err : Error) (s1 : σ)
    (hget : r.client.Get w.store .ImageStream ⟨openshiftNamespace, inst.Spec.BuildType⟩ =
      (.error err, s1))
    (hnf : IsNotFound err = false) :
    CreateBuilderImageStream r w inst =
      (.ok none, ⟨s1, w.calls ++
        [Call.Get .ImageStream ⟨openshiftNamespace, inst.Spec.BuildType⟩]⟩) := by
  simp [CreateBuilderImageStream, ReconcileComponent.Get, hget, hnf]

/-- Witness for C6: a forbidden read in the shared namespace. -/
theorem CreateBuilderImageStream_drops_read_error_witness :
    CreateBuilderImageStream forbiddenReconciler (worldOf appComponent) appComponent =
      (.ok none, ⟨storeOf appComponent, [Call.Get .ImageStream ⟨"openshift", "nodejs"⟩]⟩) :=
  CreateBuilderImageStream_drops_read_error forbiddenReconciler (worldOf appComponent)
    appComponent (.StatusError .Forbidden "imagestreams" "nodejs") (storeOf appComponent)
    rfl rfl

/-- C7 (what the code does): when the shared lookup reports not-found and the build
type is mapped, `CreateBuilderImageStream` passes the synthesized descriptor to Create
as built, before any stamping; the ownership link is stamped afterwards on the
in-memory copy only, and when that stamping fails the error is returned with the
resource already created. -/
theorem CreateBuilderImageStream_creates_before_stamping (r : ReconcileComponent σ)
    (w : World σ) (inst : Component) (err : Error) (s1 s2 : σ) (b : Object)
    (hget : r.client.Get w.store .ImageStream ⟨openshiftNamespace, inst.Spec.BuildType⟩ =
      (.error err, s1))
    (hnf : IsNotFound err = true)
    (hnew : newImageStreamFromDocker r.resources inst = some b)
    (hcreate : r.client.Create s1 .ImageStream b = (none, s2)) :
    (CreateBuilderImageStream r w inst).2 =
      ⟨s2, w.calls ++ [Call.Get .ImageStream ⟨openshiftNamespace, inst.Spec.BuildType⟩,
        Call.Create .ImageStream b]⟩ ∧
    (∀ e, r.scheme.SetControllerReference inst b = .error e →
      (CreateBuilderImageStream r w inst).1 = .error e) ∧
    (∀ d, r.scheme.SetControllerReference inst b = .ok d →
      (CreateBuilderImageStream r w inst).1 = .ok (some d)) := by
  refine ⟨?_, ?_, ?_⟩
  · simp only [CreateBuilderImageStream, ReconcileComponent.Get, ReconcileComponent.Create,
      hget, hnf, hnew, hcreate, if_true]
    cases r.scheme.SetControllerReference inst b <;> simp
  · intro e he
    simp [CreateBuilderImageStream, ReconcileComponent.Get, ReconcileComponent.Create,
      hget, hnf, hnew, hcreate, he]
  · intro d hd
    simp [CreateBuilderImageStream, ReconcileComponent.Get, ReconcileComponent.Create,
      hget, hnf, hnew, hcreate, hd]

/-- Witness for C7: with a scheme that cannot stamp, the builder image stream is
created without owner and the run then fails with the stamping error. -/
theorem CreateBuilderImageStream_creates_before_stamping_witness :
    (CreateBuilderImageStream unstampedReconciler (worldOf appComponent) appComponent).2 =
      ⟨{ storeOf appComponent with objects := [(Kind.ImageStream, appBuilderIS)] },
        [Call.Get .ImageStream ⟨"openshift", "nodejs"⟩, Call.Create .ImageStream appBuilderIS]⟩ ∧
    (CreateBuilderImageStream unstampedReconciler (worldOf appComponent) appComponent).1 =
      .error (.New "no kind is registered for the type Component") ∧
    appBuilderIS.ObjectMeta.OwnerReferences = [] :=
  ⟨(CreateBuilderImageStream_creates_before_stamping unstampedReconciler
      (worldOf appComponent) appComponent (NewNotFound "objects" "nodejs")
      (storeOf appComponent)
      { storeOf appComponent with objects := [(Kind.ImageStream, appBuilderIS)] }
      appBuilderIS rfl rfl rfl rfl).1,
   (CreateBuilderImageStream_creates_before_stamping unstampedReconciler
      (worldOf appComponent) appComponent (NewNotFound "objects" "nodejs")
      (storeOf appComponent)
      { storeOf appComponent with objects := [(Kind.ImageStream, appBuilderIS)] }
      appBuilderIS rfl rfl rfl rfl).2.1 _ rfl,
   rfl⟩

/-! ## Reconcile and the revision gate -/

/-- C2: for every Component successfully read from the store, `Reconcile` runs the
creation sequence (source-reference check, GitSource lookup, materialization steps)
if and only if the Component has no deletion marker and its stored revision marker is
empty or equal to its ResourceVersion; in every other case it returns an empty result
with no error and its only store call is the initial read of the Component. -/
theorem Reconcile_enters_creation_iff_admitted (r : ReconcileComponent σ) (w : World σ)
    (request : NamespacedName) (inst : Component) (s1 : σ)
    (hget : r.client.GetComponent w.store request = (.ok inst, s1)) :
    (Admitted inst ↔
      Reconcile r w request =
        createResources r ⟨s1, w.calls ++ [Call.GetComponent request]⟩
          (assignRevNumber inst)) ∧
    (¬ Admitted inst →
      Reconcile r w request = (.ok {}, ⟨s1, w.calls ++ [Call.GetComponent request]⟩)) := by
  refine ⟨⟨Reconcile_admitted r w request inst s1 hget, ?_⟩,
    Reconcile_not_admitted r w request inst s1 hget⟩
  intro h
  by_contra hadm
  rw [Reconcile_not_admitted r w request inst s1 hget hadm] at h
  exact createResources_ne_noop r _ _ _ h.symm

/-- Witness for C2: a Component with a stale marker is read and nothing else happens. -/
theorem Reconcile_enters_creation_iff_admitted_witness :
    ¬ Admitted staleComponent ∧
    Reconcile storeReconciler (worldOf staleComponent) appRequest =
      (.ok {}, ⟨storeOf staleComponent, [Call.GetComponent appRequest]⟩) :=
  ⟨by decide,
   (Reconcile_enters_creation_iff_admitted storeReconciler (worldOf staleComponent)
      appRequest staleComponent (storeOf staleComponent) rfl).2 (by decide)⟩

/-- C1 (as stated, refuted): a Component with no deletion marker whose stored revision
marker equals its ResourceVersion is admitted: `Reconcile` reads the GitSource and the
derived resources and creates the six that are missing. -/
theorem equal_marker_runs_creation_counterexample :
    IsZero convergedComponent.ObjectMeta.DeletionTimestamp = true ∧
    convergedComponent.Status.RevNumber = convergedComponent.ObjectMeta.ResourceVersion ∧
    (Reconcile storeReconciler (worldOf convergedComponent) appRequest).2.calls.take 4 =
      [Call.GetComponent appRequest, Call.GetGitSource ⟨"myproject", "app-source"⟩,
        Call.Get .ImageStream ⟨"myproject", "app"⟩, Call.Create .ImageStream appOutputIS] ∧
    ((Reconcile storeReconciler (worldOf convergedComponent) appRequest).2.calls.filter
      Call.isCreate).length = 6 :=
  ⟨rfl, rfl, rfl, rfl⟩

/-- C1 (amended): for every Component with no deletion marker whose stored revision
marker is non-empty and differs from its ResourceVersion, `Reconcile` issues no read
and no Create for the GitSource or the derived resources: its only store call is the
initial read of the Component, and it returns no error. When the marker equals the
ResourceVersion, `Reconcile` runs the creation sequence. -/
theorem Reconcile_stale_marker_noop (r : ReconcileComponent σ) (w : World σ)
    (request : NamespacedName) (inst : Component) (s1 : σ)
    (hget : r.client.GetComponent w.store request = (.ok inst, s1))
    (hdel : IsZero inst.ObjectMeta.DeletionTimestamp = true) :
    (inst.Status.RevNumber ≠ "" →
      inst.Status.RevNumber ≠ inst.ObjectMeta.ResourceVersion →
      Reconcile r w request = (.ok {}, ⟨s1, w.calls ++ [Call.GetComponent request]⟩)) ∧
    (inst.Status.RevNumber = inst.ObjectMeta.ResourceVersion →
      Reconcile r w request =
        createResources r ⟨s1, w.calls ++ [Call.GetComponent request]⟩ inst) := by
  constructor
  · intro h1 h2
    exact Reconcile_not_admitted r w request inst s1 hget
      (fun hadm => hadm.2.elim h1 h2)
  · intro h
    have := Reconcile_admitted r w request inst s1 hget ⟨hdel, Or.inr h⟩
    rwa [assignRevNumber_of_eq inst h] at this

/-- Witness for C1 (amended): the stale marker "41" against ResourceVersion "42". -/
theorem Reconcile_stale_marker_noop_witness :
    (Reconcile storeReconciler (worldOf staleComponent) appRequest).2.calls =
      [Call.GetComponent appRequest] ∧
    (Reconcile storeReconciler (worldOf staleComponent) appRequest).1 = .ok {} :=
  have h := (Reconcile_stale_marker_noop storeReconciler (worldOf staleComponent)
    appRequest staleComponent (storeOf staleComponent) rfl rfl).1 (by decide) (by decide)
  ⟨congrArg (fun out => out.2.calls) h, congrArg (fun out => out.1) h⟩

/-- C10 (as stated, refuted): a Component without source reference that carries a
deletion marker is not validated: `Reconcile` returns without error. -/
theorem missing_source_reference_counterexample :
    deletedComponent.Spec.GitSourceRef = "" ∧
    Reconcile storeReconciler (worldOf deletedComponent) appRequest =
      (.ok {}, ⟨storeOf deletedComponent, [Call.GetComponent appRequest]⟩) :=
  ⟨rfl, rfl⟩

/-- C10 (amended): for every Component whose source reference is empty, `Reconcile`
issues no Create call and no read of the GitSource or of any derived resource, its
only store call being the initial read of the Component; when the Component passes
the revision gate it returns the validation error, otherwise it returns no error. -/
theorem Reconcile_missing_source_reference (r : ReconcileComponent σ) (w : World σ)
    (request : NamespacedName) (inst : Component) (s1 : σ)
    (hget : r.client.GetComponent w.store request = (.ok inst, s1))
    (href : inst.Spec.GitSourceRef = "") :
    (Reconcile r w request).2 = ⟨s1, w.calls ++ [Call.GetComponent request]⟩ ∧
    (Admitted inst →
      (Reconcile r w request).1 = .error (.New "GitSource reference is not provided")) ∧
    (¬ Admitted inst → (Reconcile r w request).1 = .ok {}) := by
  have hcr : createResources r ⟨s1, w.calls ++ [Call.GetComponent request]⟩
      (assignRevNumber inst) =
      (.error (.New "GitSource reference is not provided"),
        ⟨s1, w.calls ++ [Call.GetComponent request]⟩) := by
    unfold createResources
    rw [if_pos (by rw [assignRevNumber_Spec]; exact href)]
  refine ⟨?_, ?_, ?_⟩
  · by_cases hadm : Admitted inst
    · rw [Reconcile_admitted r w request inst s1 hget hadm, hcr]
    · rw [Reconcile_not_admitted r w request inst s1 hget hadm]
  · intro hadm
    rw [Reconcile_admitted r w request inst s1 hget hadm, hcr]
  · intro hadm
    rw [Reconcile_not_admitted r w request inst s1 hget hadm]

/-- Witness for C10 (amended): an admitted Component without source reference. -/
theorem Reconcile_missing_source_reference_witness :
    unreferencedComponent.Spec.GitSourceRef = "" ∧ Admitted unreferencedComponent ∧
    (Reconcile storeReconciler (worldOf unreferencedComponent) appRequest).1 =
      .error (.New "GitSource reference is not provided") ∧
    (Reconcile storeReconciler (worldOf unreferencedComponent) appRequest).2 =
      ⟨storeOf unreferencedComponent, [Call.GetComponent appRequest]⟩ :=
  ⟨rfl, by decide,
   (Reconcile_missing_source_reference storeReconciler (worldOf unreferencedComponent)
      appRequest unreferencedComponent (storeOf unreferencedComponent) rfl rfl).2.1
      (by decide),
   (Reconcile_missing_source_reference storeReconciler (worldOf unreferencedComponent)
      appRequest unreferencedComponent (storeOf unreferencedComponent) rfl rfl).1⟩

/-! ## Persistence of the revision marker -/

/-- C3 (as stated, refuted): a freshly created Component is admitted and every
materialization step succeeds, yet the Component held in the store afterwards still
has an empty revision marker, different from its ResourceVersion. -/
theorem marker_not_persisted_counterexample :
    Admitted appComponent ∧
    (Reconcile storeReconciler (worldOf appComponent) appRequest).1 = .ok {} ∧
    (storeClient.GetComponent
      (Reconcile storeReconciler (worldOf appComponent) appRequest).2.store appRequest).1 =
        .ok appComponent ∧
    appComponent.Status.RevNumber = "" ∧
    appComponent.ObjectMeta.ResourceVersion = "42" :=
  ⟨by decide, rfl, rfl, rfl, rfl⟩

/-- C3 (amended): whatever the scheme and the descriptor constructors, a `Reconcile`
run leaves the Components and GitSources held in the store exactly as they were: the
revision marker is never written back. On the in-memory copy of an admitted
Component the marker equals the ResourceVersion from the assignment on. -/
theorem Reconcile_never_writes_Component (sch : Scheme) (res : Resources) (w : World Store)
    (request : NamespacedName) :
    (Reconcile ⟨storeClient, sch, res⟩ w request).2.store.components = w.store.components ∧
    (Reconcile ⟨storeClient, sch, res⟩ w request).2.store.gitSources = w.store.gitSources ∧
    (∀ inst, Admitted inst →
      (assignRevNumber inst).Status.RevNumber =
        (assignRevNumber inst).ObjectMeta.ResourceVersion) := by
  have key := Reconcile_world ⟨storeClient, sch, res⟩
    (fun a b => b.store.components = a.store.components ∧
      b.store.gitSources = a.store.gitSources)
    (fun _ => ⟨rfl, rfl⟩)
    (fun a b c hab hbc => ⟨hbc.1.trans hab.1, hbc.2.trans hab.2⟩)
    (fun _ _ => ⟨rfl, rfl⟩) (fun _ _ => ⟨rfl, rfl⟩) (fun _ _ _ => ⟨rfl, rfl⟩)
    (fun w k o => by
      simp only [ReconcileComponent.Create, storeClient]
      cases Store.lookup w.store k ⟨o.Namespace, o.Name⟩ <;> exact ⟨rfl, rfl⟩)
    w request
  exact ⟨key.1, key.2, fun inst hadm => (assignRevNumber_gate inst).mpr hadm.2⟩

/-- Witness for C3 (amended): after the run on the fresh store the stored Component
is unchanged, while the in-memory marker of `appComponent` is its ResourceVersion. -/
theorem Reconcile_never_writes_Component_witness :
    (Reconcile storeReconciler (worldOf appComponent) appRequest).2.store.components =
      [appComponent] ∧
    (assignRevNumber appComponent).Status.RevNumber = "42" :=
  ⟨(Reconcile_never_writes_Component ownerScheme s2iResources (worldOf appComponent)
      appRequest).1,
   (Reconcile_never_writes_Component ownerScheme s2iResources (worldOf appComponent)
      appRequest).2.2 appComponent (by decide)⟩

/-! ## Repeated runs -/

/-- C4 (what the code does): on any store in the state a successful first run leaves
when it had to synthesize the builder image stream (the output image stream exists,
the shared namespace still holds no image stream named after the build type, and the
synthesized builder exists under its own name and namespace), a further run for the
same admitted Component finds the output image stream, misses the builder in the
shared namespace again, issues a Create for the synthesized descriptor and fails
with already-exists. -/
theorem Reconcile_second_run_recreates_builder (sch : Scheme) (res : Resources) (s : Store)
    (cs : List Call) (request : NamespacedName) (inst : Component) (gitSource : GitSource)
    (outIS foundOut b foundB : Object)
    (hget : (storeClient.GetComponent s request).1 = .ok inst)
    (hadm : Admitted inst)
    (hne : inst.Spec.GitSourceRef ≠ "")
    (hgs : (storeClient.GetGitSource s ⟨inst.Namespace, inst.Spec.GitSourceRef⟩).1 =
      .ok gitSource)
    (hstamp : sch.SetControllerReference (assignRevNumber inst)
      (res.newOutputImageStream (assignRevNumber inst)) = .ok outIS)
    (hout : s.lookup .ImageStream ⟨outIS.Namespace, outIS.Name⟩ = some foundOut)
    (hshared : s.lookup .ImageStream ⟨openshiftNamespace, inst.Spec.BuildType⟩ = none)
    (hnew : newImageStreamFromDocker res (assignRevNumber inst) = some b)
    (hb : s.lookup .ImageStream ⟨b.Namespace, b.Name⟩ = some foundB) :
    Reconcile ⟨storeClient, sch, res⟩ ⟨s, cs⟩ request =
      (.error (NewAlreadyExists "objects" b.Name),
        ⟨s, cs ++ [Call.GetComponent request,
          Call.GetGitSource ⟨inst.Namespace, inst.Spec.GitSourceRef⟩,
          Call.Get .ImageStream ⟨outIS.Namespace, outIS.Name⟩,
          Call.Get .ImageStream ⟨openshiftNamespace, inst.Spec.BuildType⟩,
          Call.Create .ImageStream b]⟩) := by
  have hS := assignRevNumber_Spec inst
  have hM := assignRevNumber_ObjectMeta inst
  have hgetc : (⟨storeClient, sch, res⟩ : ReconcileComponent Store).client.GetComponent
      (⟨s, cs⟩ : World Store).store request = (.ok inst, s) := Prod.ext hget rfl
  have hgsc : (⟨storeClient, sch, res⟩ : ReconcileComponent Store).GetGitSource
      ⟨s, cs ++ [Call.GetComponent request]⟩
      ⟨(assignRevNumber inst).Namespace, (assignRevNumber inst).Spec.GitSourceRef⟩ =
      (.ok gitSource, ⟨s, cs ++ [Call.GetComponent request] ++
        [Call.GetGitSource ⟨inst.Namespace, inst.Spec.GitSourceRef⟩]⟩) := by
    simp only [Component.Namespace, hS, hM]
    exact Prod.ext hgs rfl
  have hne2 : (assignRevNumber inst).Spec.GitSourceRef ≠ "" := by rw [hS]; exact hne
  rw [Reconcile_admitted _ _ request inst s hgetc hadm]
  rw [createResources_builder_failed _ _ _ _ _ _ gitSource foundOut _ hne2 hgsc
    (by rw [CreateOutputImageStream_eq]; simp only [hstamp]
        exact getOrCreate_store_found sch res _ _ outIS foundOut hout)
    (CreateBuilderImageStream_store_conflict sch res _ _ b foundB
      (by rw [hS]; exact hshared) hnew hb)]
  simp [hS]

/-- Witness for C4: on the fresh store the first run succeeds and synthesizes the
builder image stream in the namespace of the Component; the second run, on the store
left by the first, issues a Create for it again and fails. -/
theorem Reconcile_second_run_recreates_builder_witness :
    (Reconcile storeReconciler (worldOf appComponent) appRequest).1 = .ok {} ∧
    Reconcile storeReconciler
        ⟨(Reconcile storeReconciler (worldOf appComponent) appRequest).2.store, []⟩ appRequest =
      (.error (NewAlreadyExists "objects" "nodejs"),
        ⟨(Reconcile storeReconciler (worldOf appComponent) appRequest).2.store,
          [Call.GetComponent appRequest, Call.GetGitSource ⟨"myproject", "app-source"⟩,
            Call.Get .ImageStream ⟨"myproject", "app"⟩,
            Call.Get .ImageStream ⟨"openshift", "nodejs"⟩,
            Call.Create .ImageStream appBuilderIS]⟩) :=
  ⟨rfl,
   Reconcile_second_run_recreates_builder ownerScheme s2iResources
    (Reconcile storeReconciler (worldOf appComponent) appRequest).2.store []
    appRequest appComponent appGitSource appOutputIS appOutputIS appBuilderIS appBuilderIS
    rfl (by decide) (by decide) rfl rfl rfl rfl rfl rfl⟩

/-! ## Unresolvable builder image -/

/-- C5 (as stated, refuted): for an admitted Component with a resolvable GitSource
whose build type has neither an image stream in the shared namespace nor a mapping,
`Reconcile` returns the builder-image-not-found error, but the store is not the same
as before the run: the output image stream has been created. -/
theorem unmapped_builder_after_output_counterexample :
    Admitted rubyComponent ∧
    buildTypeImages rubyComponent.Spec.BuildType = none ∧
    (storeOf rubyComponent).lookup .ImageStream ⟨openshiftNamespace, "ruby"⟩ = none ∧
    Reconcile storeReconciler (worldOf rubyComponent) appRequest =
      (.error (NewNotFound "ImageStream" "builder image for build not found"),
        ⟨{ storeOf rubyComponent with objects := [(Kind.ImageStream, appOutputIS)] },
          [Call.GetComponent appRequest, Call.GetGitSource ⟨"myproject", "app-source"⟩,
            Call.Get .ImageStream ⟨"myproject", "app"⟩,
            Call.Create .ImageStream appOutputIS,
            Call.Get .ImageStream ⟨"openshift", "ruby"⟩]⟩) ∧
    (storeOf rubyComponent).objects = [] :=
  ⟨by decide, rfl, rfl, rfl, rfl⟩

/-- C5 (amended): for every admitted Component with a resolvable GitSource whose
output image stream descriptor is stamped, and whose build type has neither an image
stream in the shared namespace nor a mapping, `Reconcile` on the in-memory store
returns the builder-image-not-found error; the builder step creates nothing, and the
store is left as before the run except for the output image stream, which the run
has created if it did not exist. -/
theorem Reconcile_unmapped_builder (sch : Scheme) (res : Resources) (s : Store)
    (cs : List Call) (request : NamespacedName) (inst : Component) (gitSource : GitSource)
    (outIS : Object)
    (hget : (storeClient.GetComponent s request).1 = .ok inst)
    (hadm : Admitted inst)
    (hne : inst.Spec.GitSourceRef ≠ "")
    (hgs : (storeClient.GetGitSource s ⟨inst.Namespace, inst.Spec.GitSourceRef⟩).1 =
      .ok gitSource)
    (hstamp : sch.SetControllerReference (assignRevNumber inst)
      (res.newOutputImageStream (assignRevNumber inst)) = .ok outIS)
    (hshared : s.lookup .ImageStream ⟨openshiftNamespace, inst.Spec.BuildType⟩ = none)
    (hmap : buildTypeImages inst.Spec.BuildType = none)
    (hkey : ¬ (outIS.Namespace = openshiftNamespace ∧ outIS.Name = inst.Spec.BuildType)) :
    (∀ found, s.lookup .ImageStream ⟨outIS.Namespace, outIS.Name⟩ = some found →
      Reconcile ⟨storeClient, sch, res⟩ ⟨s, cs⟩ request =
        (.error (NewNotFound "ImageStream" "builder image for build not found"),
          ⟨s, cs ++ [Call.GetComponent request,
            Call.GetGitSource ⟨inst.Namespace, inst.Spec.GitSourceRef⟩,
            Call.Get .ImageStream ⟨outIS.Namespace, outIS.Name⟩,
            Call.Get .ImageStream ⟨openshiftNamespace, inst.Spec.BuildType⟩]⟩)) ∧
    (s.lookup .ImageStream ⟨outIS.Namespace, outIS.Name⟩ = none →
      Reconcile ⟨storeClient, sch, res⟩ ⟨s, cs⟩ request =
        (.error (NewNotFound "ImageStream" "builder image for build not found"),
          ⟨{ s with objects := s.objects ++ [(Kind.ImageStream, outIS)] },
            cs ++ [Call.GetComponent request,
              Call.GetGitSource ⟨inst.Namespace, inst.Spec.GitSourceRef⟩,
              Call.Get .ImageStream ⟨outIS.Namespace, outIS.Name⟩,
              Call.Create .ImageStream outIS,
              Call.Get .ImageStream ⟨openshiftNamespace, inst.Spec.BuildType⟩]⟩)) := by
  have hS := assignRevNumber_Spec inst
  have hM := assignRevNumber_ObjectMeta inst
  have hgetc : (⟨storeClient, sch, res⟩ : ReconcileComponent Store).client.GetComponent
      (⟨s, cs⟩ : World Store).store request = (.ok inst, s) := Prod.ext hget rfl
  have hgsc : (⟨storeClient, sch, res⟩ : ReconcileComponent Store).GetGitSource
      ⟨s, cs ++ [Call.GetComponent request]⟩
      ⟨(assignRevNumber inst).Namespace, (assignRevNumber inst).Spec.GitSourceRef⟩ =
      (.ok gitSource, ⟨s, cs ++ [Call.GetComponent request] ++
        [Call.GetGitSource ⟨inst.Namespace, inst.Spec.GitSourceRef⟩]⟩) := by
    simp only [Component.Namespace, hS, hM]
    exact Prod.ext hgs rfl
  have hne2 : (assignRevNumber inst).Spec.GitSourceRef ≠ "" := by rw [hS]; exact hne
  constructor
  · intro found hfound
    rw [Reconcile_admitted _ _ request inst s hgetc hadm]
    rw [createResources_builder_failed _ _ _ _ _ _ gitSource found _ hne2 hgsc
      (by rw [CreateOutputImageStream_eq]; simp only [hstamp]
          exact getOrCreate_store_found sch res _ _ outIS found hfound)
      (CreateBuilderImageStream_store_unmapped sch res _ _
        (by rw [hS]; exact hshared) (by rw [hS]; exact hmap))]
    simp [hS]
  · intro habsent
    rw [Reconcile_admitted _ _ request inst s hgetc hadm]
    rw [createResources_builder_failed _ _ _ _ _ _ gitSource outIS _ hne2 hgsc
      (by rw [CreateOutputImageStream_eq]; simp only [hstamp]
          exact getOrCreate_store_absent sch res _ _ outIS habsent)
      (CreateBuilderImageStream_store_unmapped sch res _ _
        (by
          rw [hS]
          show Store.lookup { s with objects := s.objects ++ [(Kind.ImageStream, outIS)] }
            .ImageStream ⟨openshiftNamespace, inst.Spec.BuildType⟩ = none
          rw [Store.lookup_append, hshared]
          simp [hkey])
        (by rw [hS]; exact hmap))]
    simp [hS]

/-- Witness for C5 (amended): the output image stream already exists, so the failed
run leaves the store untouched. -/
theorem Reconcile_unmapped_builder_witness :
    Reconcile storeReconciler
        ⟨{ storeOf rubyComponent with objects := [(Kind.ImageStream, appOutputIS)] }, []⟩
        appRequest =
      (.error (NewNotFound "ImageStream" "builder image for build not found"),
        ⟨{ storeOf rubyComponent with objects := [(Kind.ImageStream, appOutputIS)] },
          [Call.GetComponent appRequest, Call.GetGitSource ⟨"myproject", "app-source"⟩,
            Call.Get .ImageStream ⟨"myproject", "app"⟩,
            Call.Get .ImageStream ⟨"openshift", "ruby"⟩]⟩) :=
  (Reconcile_unmapped_builder ownerScheme s2iResources
    { storeOf rubyComponent with objects := [(Kind.ImageStream, appOutputIS)] } []
    appRequest rubyComponent appGitSource appOutputIS rfl (by decide) (by decide) rfl rfl
    rfl rfl (by decide)).1 appOutputIS rfl

end ComponentController
